import Mathlib

/-!
Shallow embedding of `rsvg-convert` (src/main.rs): a caching command-line
front end that converts SVG files by delegating to an external `inkscape`
subprocess.  The embedding models:

* `hash_input` — the cache-key derivation (`DefaultHasher`, i.e. SipHash-1-3
  with both keys zero, over the parameter fields followed by the input path),
  rendered as a lowercase hexadecimal string;
* `run` — the control flow of `main`: cache-directory creation, cache
  hit/miss decision, format and DPI validation, converter invocation,
  error propagation and output delivery, as a pure function of the
  invocation arguments and an explicit environment recording the
  filesystem and subprocess behaviour.

Machine integers are `Nat` with explicit reduction mod `2 ^ 64`; the `f64`
command-line fields are modelled as `ℚ` (the mathematical value of the
parsed floating-point number), and the Rust `as u64` cast as truncation
toward zero clamped to `[0, 2 ^ 64)`.
-/

namespace RsvgConvert

/-! ### Byte-level helpers -/

/-- `k` little-endian base-256 digits of `n` (the low `k` bytes). -/
def leBytes : Nat → Nat → List Nat
  | 0, _ => []
  | k + 1, n => n % 256 :: leBytes k (n / 256)

/-- The 8 little-endian bytes of a 64-bit word, as written by
`Hasher::write_u64` on a little-endian platform. -/
def u64le (n : Nat) : List Nat := leBytes 8 n

/-- Reassemble a little-endian byte list into a natural number. -/
def le64 (bs : List Nat) : Nat := bs.foldr (fun b acc => acc * 256 + b) 0

/-- 64-bit rotate left by `r` (for `0 < r < 64`), on values `< 2 ^ 64`. -/
def rotl64 (x r : Nat) : Nat := ((x <<< r) % 2 ^ 64) ||| (x >>> (64 - r))

/-! ### SipHash-1-3 (`std::collections::hash_map::DefaultHasher`) -/

/-- The four 64-bit state words of SipHash. -/
structure SipState where
  v0 : Nat
  v1 : Nat
  v2 : Nat
  v3 : Nat

/-- One SipRound. -/
def sipRound (s : SipState) : SipState :=
  let v0 := (s.v0 + s.v1) % 2 ^ 64
  let v1 := rotl64 s.v1 13 ^^^ v0
  let v0 := rotl64 v0 32
  let v2 := (s.v2 + s.v3) % 2 ^ 64
  let v3 := rotl64 s.v3 16 ^^^ v2
  let v0' := (v0 + v3) % 2 ^ 64
  let v3' := rotl64 v3 21 ^^^ v0'
  let v2' := (v2 + v1) % 2 ^ 64
  let v1' := rotl64 v1 17 ^^^ v2'
  { v0 := v0', v1 := v1', v2 := rotl64 v2' 32, v3 := v3' }

/-- Absorb one 64-bit message word (SipHash-1-3: one compression round). -/
def sipCompress (s : SipState) (m : Nat) : SipState :=
  let s := { s with v3 := s.v3 ^^^ m }
  let s := sipRound s
  { s with v0 := s.v0 ^^^ m }

/-- Initial state for keys `k0 = k1 = 0`, as built by `DefaultHasher::new()`. -/
def sipInit : SipState :=
  { v0 := 0x736f6d6570736575, v1 := 0x646f72616e646f6d,
    v2 := 0x6c7967656e657261, v3 := 0x7465646279746573 }

/-- Consume the message 8 bytes at a time, then the final partial word with
the total length in the top byte, and the 3 finalization rounds. -/
def sipProcess (s : SipState) (len : Nat) : List Nat → Nat
  | b0 :: b1 :: b2 :: b3 :: b4 :: b5 :: b6 :: b7 :: rest =>
    sipProcess (sipCompress s (le64 [b0, b1, b2, b3, b4, b5, b6, b7])) len rest
  | tail =>
    let b := ((len % 256) <<< 56) ||| le64 tail
    let s := sipCompress s b
    let s := { s with v2 := s.v2 ^^^ 0xff }
    let s := sipRound (sipRound (sipRound s))
    s.v0 ^^^ s.v1 ^^^ s.v2 ^^^ s.v3

/-- SipHash-1-3 with zero keys of a byte string (`hasher.finish()`). -/
def sipHash13 (bs : List Nat) : Nat := sipProcess sipInit bs.length bs

/-! ### Lowercase hexadecimal rendering -/

/-- One lowercase hex digit. -/
def hexDigit (n : Nat) : Char :=
  if n < 10 then Char.ofNat (48 + n) else Char.ofNat (87 + n)

/-- Hex digits of `n`, most significant first (`fuel` bounds the length). -/
def hexChars : Nat → Nat → List Char
  | 0, _ => []
  | fuel + 1, n => if n = 0 then [] else hexChars fuel (n / 16) ++ [hexDigit (n % 16)]

/-- Render a 64-bit hash value the way Rust prints it with a lowercase hex
format specifier and no minimum width: no leading zeros, and a single `0`
for the value zero. -/
def hexString (n : Nat) : String := if n = 0 then "0" else String.mk (hexChars 16 n)

/-! ### UTF-8 encoding (bytes fed by `str::hash` and `Path::hash`) -/

/-- UTF-8 encoding of one scalar value. -/
def charBytes (c : Char) : List Nat :=
  if c.toNat < 0x80 then [c.toNat]
  else if c.toNat < 0x800 then [0xc0 + c.toNat / 64, 0x80 + c.toNat % 64]
  else if c.toNat < 0x10000 then
    [0xe0 + c.toNat / 4096, 0x80 + c.toNat / 64 % 64, 0x80 + c.toNat % 64]
  else
    [0xf0 + c.toNat / 0x40000, 0x80 + c.toNat / 4096 % 64, 0x80 + c.toNat / 64 % 64,
     0x80 + c.toNat % 64]

/-- UTF-8 bytes of a character list. -/
def utf8Bytes (l : List Char) : List Nat := (l.map charBytes).flatten

/-- Bytes written by `<str as Hash>::hash`: the UTF-8 bytes followed by a
`0xff` terminator byte. -/
def strHashBytes (s : String) : List Nat := utf8Bytes s.data ++ [0xff]

/-- Bytes written by `<Path as Hash>::hash` on Unix, for paths without `.`
components or redundant separators: the path's bytes with separator bytes
skipped, followed by the number of bytes hashed written as a `usize`
(8 little-endian bytes on a 64-bit platform). -/
def pathHashBytes (p : String) : List Nat :=
  let body := utf8Bytes (p.data.filter fun c => c ≠ '/')
  body ++ u64le body.length

/-! ### The parsed command line (`struct Args`) -/

/-- The parsed command-line arguments of `main.rs`.  The four `f64` fields
carry the mathematical value of the parsed floating-point number as a
rational; `width`/`height` are `u64` values (bounded by `2 ^ 64` where a
proof needs it); `input = none` means the standard-input stream and
`output = none` means the standard-output stream. -/
structure Args where
  dpi_x : ℚ
  dpi_y : ℚ
  x_zoom : ℚ
  y_zoom : ℚ
  width : Option Nat
  height : Option Nat
  format : String
  keep_aspect_ratio : Bool
  input : Option String
  output : Option String

/-- `(q * 1000.0) as u64` — the truncation-to-thousandths applied to each
numeric field before hashing.  Rust's `as u64` cast truncates toward zero
and saturates at the ends of the `u64` range; for `q ≤ 0` every value in
scope truncates or saturates to `0`, and for `q > 0` truncation toward
zero is the floor `(1000 * q.num) / q.den` (written on `q`'s normalized
numerator and denominator, so that no rational multiplication is needed). -/
def trunc1000 (q : ℚ) : Nat :=
  if q ≤ 0 then 0 else min (2 ^ 64 - 1) (q.num.toNat * 1000 / q.den)

/-- Bytes written by the derived `Hash` of `Option<u64>`: the discriminant
as an 8-byte word (`0` for `None`, `1` for `Some`), then the payload. -/
def optU64Bytes : Option Nat → List Nat
  | none => u64le 0
  | some n => u64le 1 ++ u64le n

/-- Byte written by `<bool as Hash>::hash`. -/
def boolByte (b : Bool) : Nat := if b then 1 else 0

/-- The byte stream fed to the hasher by `hash_input` for the parameter
fields, in source order: the four truncated numeric fields, width, height,
the format string and the aspect-ratio flag. -/
def paramStream (a : Args) : List Nat :=
  u64le (trunc1000 a.dpi_x) ++ u64le (trunc1000 a.dpi_y) ++
  u64le (trunc1000 a.x_zoom) ++ u64le (trunc1000 a.y_zoom) ++
  optU64Bytes a.width ++ optU64Bytes a.height ++
  strHashBytes a.format ++ [boolByte a.keep_aspect_ratio]

/-- The full hasher input for a real-file input: parameter fields followed
by the input path. -/
def fullStream (a : Args) (p : String) : List Nat := paramStream a ++ pathHashBytes p

/-- `hash_input` from `main.rs`: hash the parameter fields, then return
`None` for a standard-input source (`opt.input.as_ref()?`), otherwise hash
the path as well and render `hasher.finish()` in lowercase hex.  A pure
function: no I/O, no side effects. -/
def hash_input (a : Args) : Option String :=
  a.input.map fun p => hexString (sipHash13 (fullStream a p))

/-! ### The orchestrator (`main`) -/

/-- Result of the `fs::create_dir` call, when it happens. -/
inductive DirResult
  | ok
  | alreadyExists
  | otherError
deriving DecidableEq

/-- Result of `cmd.output()`: either the spawn itself failed (`inkscape`
missing), or the subprocess ran to completion with an exit code and
captured output streams. -/
inductive ConvResult
  | spawnFail
  | exit (code : Nat) (stdoutText stderrText : String)
deriving DecidableEq

/-- The environment a single invocation runs in: everything `main` observes
from the outside world, fixed up front so that `run` is a pure function.
`relayOutOk`/`relayErrOk` are the would-be results of the two
`write_all` calls relaying the converter's streams; the source discards
them (`let _ = ...`), so `run` never reads them. -/
structure Env where
  tmpDir : String
  cacheDirPreexists : Bool
  createDir : DirResult
  files : String → Option (List Nat)
  converter : ConvResult
  artifact : Option (List Nat)
  copyOk : Bool
  stdoutWriteOk : Bool
  relayOutOk : Bool
  relayErrOk : Bool

/-- The failure cases of `main`, one per `return Err(...)` / panic site. -/
inductive ErrKind
  | createDirFailed
  | unsupportedFormat (fmt : String)
  | dpiMismatch
  | spawnFailed
  | inkscapeError (stderrText : String)
  | copyFailed
  | noOutput (path : String)
  | stdoutWriteFailed
deriving DecidableEq

/-- Process outcome: clean exit or a failure with its diagnostic. -/
inductive Outcome
  | ok
  | err (e : ErrKind)
deriving DecidableEq

/-- The human-readable diagnostic for each failure, as `main.rs` renders
it. -/
def renderErr : ErrKind → String
  | ErrKind.createDirFailed => "failed to create temporary directory"
  | ErrKind.unsupportedFormat f => "Unsupported file format: " ++ f
  | ErrKind.dpiMismatch => "Different DPI values for x and y currently not supported"
  | ErrKind.spawnFailed => "Failed to execute inkscape"
  | ErrKind.inkscapeError s => "Inkscape error:\n" ++ s
  | ErrKind.copyFailed => "Failed to copy output to destination"
  | ErrKind.noOutput p => "No output was generated: " ++ p
  | ErrKind.stdoutWriteFailed => "Failed to write output to stdout"

/-- What one invocation did: its outcome, whether `cmd.output()` was
reached (`invoked`), whether the cached-artifact branch was taken
(`reusedCache`), the cache path it settled on, the bytes it copied to the
requested destination file / streamed to its own standard output, and the
final filesystem contents. -/
structure RunResult where
  outcome : Outcome
  invoked : Bool
  reusedCache : Bool
  usedPath : Option String
  copiedToDest : Option (List Nat)
  stdoutBytes : Option (List Nat)
  finalFiles : String → Option (List Nat)

/-- `env::temp_dir().push("rsvg-convert-cache")`. -/
def cacheDirOf (tmp : String) : String := tmp ++ "/rsvg-convert-cache"

/-- `PathBuf::with_extension` for file names that contain no `.` (hex keys
and `from_stdin`): append `.ext`, or nothing for the empty extension. -/
def withExt (base ext : String) : String := if ext = "" then base else base ++ "." ++ ext

/-- `cache_dir.join(name).with_extension(format)`. -/
def keyPath (tmp name fmt : String) : String := cacheDirOf tmp ++ "/" ++ withExt name fmt

/-- The `--export-type` argument for each supported format; `none` is the
`Unsupported file format` case. -/
def exportArg : String → Option String
  | "png" => some "--export-type=png"
  | "pdf" => some "--export-type=pdf"
  | "ps" => some "--export-type=ps"
  | "eps" => some "--export-type=eps"
  | "wmf" => some "--export-type=wmf"
  | "emf" => some "--export-type=emf"
  | _ => none

/-- Point update of a filesystem map. -/
def updateFiles (files : String → Option (List Nat)) (p : String) (v : Option (List Nat)) :
    String → Option (List Nat) :=
  fun q => if q = p then v else files q

/-- The output-delivery tail of `main`: copy the cache file to the
requested destination, or stream it to standard output; `fs::copy` and
`File::open` fail when the source file is absent. -/
def deliver (a : Args) (e : Env) (path : String) (files : String → Option (List Nat))
    (inv reused : Bool) : RunResult :=
  match a.output with
  | some dest =>
    match files path with
    | some bs =>
      if e.copyOk then
        { outcome := Outcome.ok, invoked := inv, reusedCache := reused, usedPath := some path,
          copiedToDest := some bs, stdoutBytes := none,
          finalFiles := updateFiles files dest (some bs) }
      else
        { outcome := Outcome.err ErrKind.copyFailed, invoked := inv, reusedCache := reused,
          usedPath := some path, copiedToDest := none, stdoutBytes := none, finalFiles := files }
    | none =>
      { outcome := Outcome.err ErrKind.copyFailed, invoked := inv, reusedCache := reused,
        usedPath := some path, copiedToDest := none, stdoutBytes := none, finalFiles := files }
  | none =>
    match files path with
    | some bs =>
      if e.stdoutWriteOk then
        { outcome := Outcome.ok, invoked := inv, reusedCache := reused, usedPath := some path,
          copiedToDest := none, stdoutBytes := some bs, finalFiles := files }
      else
        { outcome := Outcome.err ErrKind.stdoutWriteFailed, invoked := inv, reusedCache := reused,
          usedPath := some path, copiedToDest := none, stdoutBytes := none, finalFiles := files }
    | none =>
      { outcome := Outcome.err (ErrKind.noOutput path), invoked := inv, reusedCache := reused,
        usedPath := some path, copiedToDest := none, stdoutBytes := none, finalFiles := files }

/-- The cache path and hit flag computed by the `match hash_input(&opt)`
block: a keyed path with a real existence check for a real-file input, the
fixed `from_stdin` path with `exists = false` for standard input. -/
def pathAndHit (a : Args) (e : Env) : String × Bool :=
  match hash_input a with
  | some h => (keyPath e.tmpDir h a.format, (e.files (keyPath e.tmpDir h a.format)).isSome)
  | none => (keyPath e.tmpDir "from_stdin" a.format, false)

/-- The whole of `main` after argument parsing, as a pure function of the
arguments and the environment. -/
def run (a : Args) (e : Env) : RunResult :=
  if ¬ e.cacheDirPreexists ∧ e.createDir ≠ DirResult.ok then
    { outcome := Outcome.err ErrKind.createDirFailed, invoked := false, reusedCache := false,
      usedPath := none, copiedToDest := none, stdoutBytes := none, finalFiles := e.files }
  else
    let path := (pathAndHit a e).1
    if (pathAndHit a e).2 then
      deliver a e path e.files false true
    else
      match exportArg a.format with
      | none =>
        { outcome := Outcome.err (ErrKind.unsupportedFormat a.format), invoked := false,
          reusedCache := false, usedPath := some path, copiedToDest := none,
          stdoutBytes := none, finalFiles := e.files }
      | some _ =>
        if a.dpi_x = a.dpi_y then
          match e.converter with
          | ConvResult.spawnFail =>
            { outcome := Outcome.err ErrKind.spawnFailed, invoked := true, reusedCache := false,
              usedPath := some path, copiedToDest := none, stdoutBytes := none,
              finalFiles := e.files }
          | ConvResult.exit code _ errText =>
            let files2 := updateFiles e.files path e.artifact
            if code = 0 then
              deliver a e path files2 true false
            else
              { outcome := Outcome.err (ErrKind.inkscapeError errText), invoked := true,
                reusedCache := false, usedPath := some path, copiedToDest := none,
                stdoutBytes := none, finalFiles := files2 }
        else
          { outcome := Outcome.err ErrKind.dpiMismatch, invoked := false, reusedCache := false,
            usedPath := some path, copiedToDest := none, stdoutBytes := none,
            finalFiles := e.files }

/-- The cache-directory stage of `run` does not abort: the directory was
already there at the existence check, or the creation call succeeded. -/
def dirStageOk (e : Env) : Prop :=
  e.cacheDirPreexists = true ∨ e.createDir = DirResult.ok

/-! ### Injectivity of the hasher input encoding -/

theorem leBytes_length (k n : Nat) : (leBytes k n).length = k := by
  induction k generalizing n with
  | zero => rfl
  | succ k ih => simp [leBytes, ih]

theorem leBytes_inj {k m n : Nat} (hm : m < 256 ^ k) (hn : n < 256 ^ k)
    (h : leBytes k m = leBytes k n) : m = n := by
  induction k generalizing m n with
  | zero =>
    simp [Nat.pow_zero, Nat.lt_one_iff] at hm hn
    omega
  | succ k ih =>
    simp only [leBytes, List.cons.injEq] at h
    have hm' : m / 256 < 256 ^ k := by
      have : m < 256 ^ k * 256 := by rw [← pow_succ]; exact hm
      omega
    have hn' : n / 256 < 256 ^ k := by
      have : n < 256 ^ k * 256 := by rw [← pow_succ]; exact hn
      omega
    have := ih hm' hn' h.2
    omega

theorem u64le_length (n : Nat) : (u64le n).length = 8 := leBytes_length 8 n

theorem u64le_inj {m n : Nat} (hm : m < 2 ^ 64) (hn : n < 2 ^ 64)
    (h : u64le m = u64le n) : m = n := by
  have e : (2 : Nat) ^ 64 = 256 ^ 8 := by norm_num
  exact leBytes_inj (e ▸ hm) (e ▸ hn) h

theorem trunc1000_lt (q : ℚ) : trunc1000 q < 2 ^ 64 := by
  unfold trunc1000
  split
  · positivity
  · have : min (2 ^ 64 - 1) (q.num.toNat * 1000 / q.den) ≤ 2 ^ 64 - 1 := Nat.min_le_left _ _
    omega

/-- `n < 2 ^ 64` for every value in an optional `u64` field. -/
def optBound : Option Nat → Prop
  | none => True
  | some n => n < 2 ^ 64

theorem optU64Bytes_inj {w w' : Option Nat} (hw : optBound w) (hw' : optBound w')
    (h : optU64Bytes w = optU64Bytes w') : w = w' := by
  match w, w' with
  | none, none => rfl
  | none, some n =>
    have := congrArg List.length h
    simp [optU64Bytes, u64le_length] at this
  | some m, none =>
    have := congrArg List.length h
    simp [optU64Bytes, u64le_length] at this
  | some m, some n =>
    simp only [optU64Bytes] at h
    have h2 := List.append_cancel_left h
    exact congrArg some (u64le_inj hw hw' h2)

theorem char_toNat_lt (c : Char) : c.toNat < 0x110000 := by
  have h := c.valid
  rcases h with h | h
  · have : c.toNat < 0xd800 := h
    omega
  · exact h.2

theorem charBytes_shape (c : Char) : ∃ b t, charBytes c = b :: t ∧
    ((b < 0x80 ∧ t.length = 0) ∨ (0xc0 ≤ b ∧ b < 0xe0 ∧ t.length = 1) ∨
     (0xe0 ≤ b ∧ b < 0xf0 ∧ t.length = 2) ∨ (0xf0 ≤ b ∧ t.length = 3)) := by
  have hlt := char_toNat_lt c
  unfold charBytes
  split
  · exact ⟨c.toNat, [], rfl, Or.inl ⟨by omega, rfl⟩⟩
  · split
    · exact ⟨0xc0 + c.toNat / 64, _, rfl, Or.inr (Or.inl ⟨by omega, by omega, rfl⟩)⟩
    · split
      · exact ⟨0xe0 + c.toNat / 4096, _, rfl, Or.inr (Or.inr (Or.inl ⟨by omega, by omega, rfl⟩))⟩
      · exact ⟨0xf0 + c.toNat / 0x40000, _, rfl, Or.inr (Or.inr (Or.inr ⟨by omega, rfl⟩))⟩

theorem charBytes_ne_nil (c : Char) : charBytes c ≠ [] := by
  obtain ⟨b, t, he, -⟩ := charBytes_shape c
  simp [he]

theorem charBytes_inj {c d : Char} (h : charBytes c = charBytes d) : c = d := by
  have hc := char_toNat_lt c
  have hd := char_toNat_lt d
  have : c.toNat = d.toNat := by
    unfold charBytes at h
    repeat' split at h
    all_goals simp only [List.cons.injEq, and_true, List.cons_ne_nil, List.nil_eq,
      reduceCtorEq, and_false, false_and] at h
    all_goals omega
  have hv : c.val = d.val := by
    have : c.val.toNat = d.val.toNat := this
    exact UInt32.toNat.inj this
  exact Char.ext hv

theorem charBytes_prefix_inj {c d : Char} {x y : List Nat}
    (h : charBytes c ++ x = charBytes d ++ y) : c = d ∧ x = y := by
  obtain ⟨b, t, he, hcl⟩ := charBytes_shape c
  obtain ⟨b', t', he', hcl'⟩ := charBytes_shape d
  rw [he, he'] at h
  simp only [List.cons_append, List.cons.injEq] at h
  obtain ⟨hb, hrest⟩ := h
  subst hb
  have hlen : t.length = t'.length := by omega
  have hinj := List.append_inj hrest hlen
  have hcd : c = d := charBytes_inj (by rw [he, he', hinj.1])
  exact ⟨hcd, hinj.2⟩

theorem utf8Bytes_inj : ∀ {l₁ l₂ : List Char}, utf8Bytes l₁ = utf8Bytes l₂ → l₁ = l₂ := by
  intro l₁
  induction l₁ with
  | nil =>
    intro l₂ h
    cases l₂ with
    | nil => rfl
    | cons d t =>
      simp only [utf8Bytes, List.map_nil, List.flatten_nil, List.map_cons,
        List.flatten_cons] at h
      exact absurd (List.append_eq_nil.mp h.symm).1 (charBytes_ne_nil d)
  | cons c t ih =>
    intro l₂ h
    cases l₂ with
    | nil =>
      simp only [utf8Bytes, List.map_nil, List.flatten_nil, List.map_cons,
        List.flatten_cons] at h
      exact absurd (List.append_eq_nil.mp h).1 (charBytes_ne_nil c)
    | cons d t' =>
      simp only [utf8Bytes, List.map_cons, List.flatten_cons] at h
      obtain ⟨hcd, hrest⟩ := charBytes_prefix_inj h
      exact hcd ▸ congrArg (List.cons c) (ih hrest)

theorem strHashBytes_inj {s s' : String} (h : strHashBytes s = strHashBytes s') : s = s' := by
  simp only [strHashBytes] at h
  have h2 := List.append_cancel_right h
  have h3 := utf8Bytes_inj h2
  cases s
  cases s'
  exact congrArg String.mk h3

theorem boolByte_inj {b b' : Bool} (h : boolByte b = boolByte b') : b = b' := by
  cases b <;> cases b' <;> simp_all [boolByte]

/-! ### Orchestrator helper lemmas -/

theorem dir_cond_not {e : Env} (h : dirStageOk e) :
    ¬ (¬ e.cacheDirPreexists ∧ e.createDir ≠ DirResult.ok) := by
  rcases h with h | h <;> simp [h]

theorem pathAndHit_stdin (a : Args) (e : Env) (h : a.input = none) :
    pathAndHit a e = (keyPath e.tmpDir "from_stdin" a.format, false) := by
  simp [pathAndHit, hash_input, h]

theorem pathAndHit_file {a : Args} (e : Env) {k : String} (h : hash_input a = some k) :
    pathAndHit a e =
      (keyPath e.tmpDir k a.format, (e.files (keyPath e.tmpDir k a.format)).isSome) := by
  simp [pathAndHit, h]

theorem deliver_invoked (a : Args) (e : Env) (p : String) (f : String → Option (List Nat))
    (i r : Bool) : (deliver a e p f i r).invoked = i := by
  unfold deliver
  repeat' split
  all_goals rfl

theorem deliver_reused (a : Args) (e : Env) (p : String) (f : String → Option (List Nat))
    (i r : Bool) : (deliver a e p f i r).reusedCache = r := by
  unfold deliver
  repeat' split
  all_goals rfl

theorem deliver_usedPath (a : Args) (e : Env) (p : String) (f : String → Option (List Nat))
    (i r : Bool) : (deliver a e p f i r).usedPath = some p := by
  unfold deliver
  repeat' split
  all_goals rfl

/-- A successful delivery leaves the cache file in place. -/
theorem deliver_ok_files (a : Args) (e : Env) (p : String) (f : String → Option (List Nat))
    (i r : Bool) (h : (deliver a e p f i r).outcome = Outcome.ok) :
    ((deliver a e p f i r).finalFiles p).isSome = true := by
  rcases ho : a.output with _ | dest <;> rcases hf : f p with _ | bs <;>
      simp only [deliver, ho, hf] at h ⊢
  · exact absurd h (by simp)
  · split at h <;> simp_all
  · exact absurd h (by simp)
  · split at h <;> simp_all [updateFiles]

/-! ### Concrete fixtures for witnesses and counterexamples -/

/-- A representative invocation: defaults, PNG, real input file, stdout. -/
def argsFile : Args :=
  { dpi_x := mkRat 90 1, dpi_y := mkRat 90 1, x_zoom := mkRat 1 1, y_zoom := mkRat 1 1,
    width := none, height := none, format := "png", keep_aspect_ratio := false,
    input := some "/tmp/a.svg", output := none }

/-- The same invocation reading from standard input. -/
def argsStdin : Args := { argsFile with input := none }

/-- The same invocation with an unsupported format and a file destination. -/
def argsBmp : Args := { argsFile with format := "bmp", output := some "/tmp/out.bmp" }

/-- The same invocation with an explicit output destination. -/
def argsOut : Args := { argsFile with output := some "/tmp/x.png" }

/-- A benign environment with an empty cache. -/
def envMiss : Env :=
  { tmpDir := "/tmp", cacheDirPreexists := true, createDir := DirResult.ok,
    files := fun _ => none, converter := ConvResult.exit 0 "" "",
    artifact := some [1, 2, 3], copyOk := true, stdoutWriteOk := true,
    relayOutOk := true, relayErrOk := true }

/-- The same environment with every file present (every lookup hits). -/
def envHit : Env := { envMiss with files := fun _ => some [7] }

/-- The cache directory is absent at the check, and the creation attempt
reports that it already exists (a concurrent invocation created it in
between). -/
def envRace : Env :=
  { envMiss with cacheDirPreexists := false, createDir := DirResult.alreadyExists }

/-- The converter exits with status 1 and diagnostic text on stderr. -/
def envConvFail : Env := { envMiss with converter := ConvResult.exit 1 "" "bad file" }

/-! ### Claims -/

/-- **C3.** The cache-key derivation `hash_input` returns `Some key` exactly
when the request's input source is a real file path, and `None` exactly when
the input is the standard-input stream.  The embedding of `hash_input` is a
plain function of `Args`, reflecting that the source performs no I/O and has
no side effects (it only hashes already-parsed fields). -/
theorem hash_input_some_iff_file (a : Args) :
    (hash_input a).isSome = a.input.isSome ∧ (hash_input a).isNone = a.input.isNone := by
  cases h : a.input <;> simp [hash_input, h]

/-- **C4.** The cache key is a deterministic function of the parameter
fields and the input path: two requests that agree on DPI, zooms, width,
height, format, the aspect flag and the input path (the output destination
may differ) derive the same key. -/
theorem hash_input_deterministic (a₁ a₂ : Args)
    (h1 : a₁.dpi_x = a₂.dpi_x) (h2 : a₁.dpi_y = a₂.dpi_y)
    (h3 : a₁.x_zoom = a₂.x_zoom) (h4 : a₁.y_zoom = a₂.y_zoom)
    (h5 : a₁.width = a₂.width) (h6 : a₁.height = a₂.height)
    (h7 : a₁.format = a₂.format) (h8 : a₁.keep_aspect_ratio = a₂.keep_aspect_ratio)
    (h9 : a₁.input = a₂.input) :
    hash_input a₁ = hash_input a₂ := by
  cases a₁
  cases a₂
  dsimp only at h1 h2 h3 h4 h5 h6 h7 h8 h9
  subst h1 h2 h3 h4 h5 h6 h7 h8 h9
  rfl

/-- Witness for C4: same parameters and input, different output
destination, equal keys. -/
theorem hash_input_deterministic_witness : hash_input argsOut = hash_input argsFile :=
  hash_input_deterministic argsOut argsFile rfl rfl rfl rfl rfl rfl rfl rfl rfl

/-- **C10.** The results of the two `write_all` calls that relay the
converter's captured stdout/stderr are discarded by the source
(`let _ = ...`): a relay failure changes nothing about the invocation —
same outcome (never a non-zero exit on its account), same delivery
behaviour, same final filesystem. -/
theorem relay_results_ignored (a : Args) (e : Env) (b₁ b₂ : Bool) :
    run a { e with relayOutOk := b₁, relayErrOk := b₂ } = run a e := by
  cases e
  rfl

/-- **C5.** A request reading from standard input never reuses a cached
artifact: the cached-artifact branch is never taken, the path used is the
fixed `from_stdin.<format>` name, and (whenever the run gets past
directory creation, format validation and the DPI assertion) the converter
is invoked — regardless of whether a `from_stdin` file already exists. -/
theorem stdin_never_cached (a : Args) (e : Env) (h : a.input = none) :
    (run a e).reusedCache = false ∧
    (dirStageOk e → (run a e).usedPath = some (keyPath e.tmpDir "from_stdin" a.format)) ∧
    (dirStageOk e → (exportArg a.format).isSome = true → a.dpi_x = a.dpi_y →
      (run a e).invoked = true) := by
  unfold run
  by_cases hdc : ¬ e.cacheDirPreexists ∧ e.createDir ≠ DirResult.ok
  · rw [if_pos hdc]
    exact ⟨rfl, fun hd => absurd hdc (dir_cond_not hd),
      fun hd _ _ => absurd hdc (dir_cond_not hd)⟩
  · rw [if_neg hdc]
    simp only [pathAndHit_stdin a e h]
    refine ⟨?_, ?_, ?_⟩
    · cases hf : exportArg a.format with
      | none => simp [hf]
      | some s =>
        simp only [hf]
        by_cases hdpi : a.dpi_x = a.dpi_y
        · simp only [if_pos hdpi]
          cases hc : e.converter with
          | spawnFail => simp
          | exit code o s2 =>
            by_cases hz : code = 0
            · simp [hz, deliver_reused]
            · simp [hz]
        · simp [hdpi]
    · intro _
      cases hf : exportArg a.format with
      | none => simp [hf]
      | some s =>
        simp only [hf]
        by_cases hdpi : a.dpi_x = a.dpi_y
        · simp only [if_pos hdpi]
          cases hc : e.converter with
          | spawnFail => simp
          | exit code o s2 =>
            by_cases hz : code = 0
            · simp [hz, deliver_usedPath]
            · simp [hz]
        · simp [hdpi]
    · intro _ hfmt hdpi
      cases hf : exportArg a.format with
      | none => simp [hf] at hfmt
      | some s =>
        simp only [hf]
        rw [if_pos hdpi]
        cases hc : e.converter with
        | spawnFail => simp
        | exit code o s2 =>
          by_cases hz : code = 0
          · simp [hz, deliver_invoked]
          · simp [hz]

/-- Witness for C5: even with a pre-existing `from_stdin` artifact (every
file exists in `envHit`), a stdin request does not reuse it and invokes the
converter. -/
theorem stdin_never_cached_witness :
    (run argsStdin envHit).reusedCache = false ∧ (run argsStdin envHit).invoked = true :=
  ⟨(stdin_never_cached argsStdin envHit rfl).1,
   (stdin_never_cached argsStdin envHit rfl).2.2 (Or.inl rfl) rfl rfl⟩

/-- **C8 (amended).** If the cache directory exists at the program's
existence check, creation is skipped and no creation outcome matters
(idempotent tolerance at check time).  But if the directory does not exist
at the check and the creation attempt then fails — *including* with
"already exists" from a racing invocation — the program aborts: the race is
*not* tolerated. -/
theorem dir_creation_check_semantics (a : Args) (e : Env) :
    (e.cacheDirPreexists = true → ∀ d, run a { e with createDir := d } = run a e) ∧
    (e.cacheDirPreexists = false → e.createDir ≠ DirResult.ok →
      (run a e).outcome = Outcome.err ErrKind.createDirFailed ∧
      (run a e).invoked = false) := by
  constructor
  · intro hpre d
    cases e
    subst hpre
    rfl
  · intro h1 h2
    unfold run
    rw [if_pos ⟨by simp [h1], h2⟩]
    exact ⟨rfl, rfl⟩

/-- Witness for C8's amended theorem, at concrete inputs. -/
theorem dir_creation_check_semantics_witness :
    run argsFile { envMiss with createDir := DirResult.alreadyExists } = run argsFile envMiss ∧
    (run argsFile envRace).outcome = Outcome.err ErrKind.createDirFailed :=
  ⟨(dir_creation_check_semantics argsFile envMiss).1 rfl DirResult.alreadyExists,
   ((dir_creation_check_semantics argsFile envRace).2 rfl (by decide)).1⟩

/-- Counterexample to C8 as stated: when the directory comes into existence
between the existence check and the creation attempt (check saw "absent",
creation reports "already exists"), the program treats it as fatal and
aborts instead of tolerating it. -/
theorem dir_create_race_fatal_cex :
    envRace.cacheDirPreexists = false ∧ envRace.createDir = DirResult.alreadyExists ∧
    (run argsFile envRace).outcome = Outcome.err ErrKind.createDirFailed := by
  refine ⟨rfl, rfl, ?_⟩
  decide

/-- **C1 (amended).** On the cache-miss path (with the cache directory
stage passed), an unsupported output format or unequal DPI axes abort the
run before the converter subprocess is ever invoked.  (On a cache-*hit*
invocation these checks are skipped entirely — see the counterexample —
though no subprocess is spawned there either.) -/
theorem precheck_fails_before_spawn (a : Args) (e : Env)
    (hdir : dirStageOk e) (hmiss : (pathAndHit a e).2 = false) :
    (exportArg a.format = none →
      (run a e).outcome = Outcome.err (ErrKind.unsupportedFormat a.format) ∧
      (run a e).invoked = false) ∧
    (∀ s, exportArg a.format = some s → a.dpi_x ≠ a.dpi_y →
      (run a e).outcome = Outcome.err ErrKind.dpiMismatch ∧
      (run a e).invoked = false) := by
  unfold run
  rw [if_neg (dir_cond_not hdir)]
  simp only [hmiss]
  constructor
  · intro hf
    simp [hf]
  · intro s hf hdpi
    simp [hf, hdpi]

/-- Witness for C1's amended theorem: format `bmp` on an empty cache fails
with the unsupported-format error without invoking the converter. -/
theorem precheck_fails_before_spawn_witness :
    (run argsBmp envMiss).outcome = Outcome.err (ErrKind.unsupportedFormat "bmp") ∧
    (run argsBmp envMiss).invoked = false :=
  (precheck_fails_before_spawn argsBmp envMiss (Or.inl rfl) (by decide)).1 rfl

/-- Counterexample to C1 as stated: with format `bmp` (unsupported) but a
file already present at the derived cache path, the program does not fail
at all — it reuses the cached artifact and exits cleanly, because the
format check lives inside the cache-miss branch. -/
theorem precheck_skipped_on_cache_hit_cex :
    exportArg argsBmp.format = none ∧
    (run argsBmp envHit).outcome = Outcome.ok ∧
    (run argsBmp envHit).invoked = false ∧
    (run argsBmp envHit).reusedCache = true := by
  decide

/-- **C6.** Whenever the converter subprocess exits with a non-zero status,
the run aborts with the `Inkscape error` failure carrying the subprocess's
captured stderr text (the rendered diagnostic embeds that text verbatim),
and nothing is copied to the destination file or streamed to standard
output. -/
theorem converter_failure_aborts (a : Args) (e : Env) (c : Nat) (o s : String)
    (hdir : dirStageOk e) (hmiss : (pathAndHit a e).2 = false)
    (hfmt : (exportArg a.format).isSome = true) (hdpi : a.dpi_x = a.dpi_y)
    (hconv : e.converter = ConvResult.exit c o s) (hnz : c ≠ 0) :
    (run a e).outcome = Outcome.err (ErrKind.inkscapeError s) ∧
    (run a e).invoked = true ∧
    (run a e).copiedToDest = none ∧
    (run a e).stdoutBytes = none ∧
    renderErr (ErrKind.inkscapeError s) = "Inkscape error:\n" ++ s := by
  unfold run
  rw [if_neg (dir_cond_not hdir)]
  simp only [hmiss]
  cases hf : exportArg a.format with
  | none => simp [hf] at hfmt
  | some t =>
    simp only [hf]
    rw [if_pos hdpi, hconv]
    simp [hnz, renderErr]

/-- Witness for C6: converter exit status 1 with stderr `bad file`. -/
theorem converter_failure_aborts_witness :
    (run argsFile envConvFail).outcome = Outcome.err (ErrKind.inkscapeError "bad file") ∧
    (run argsFile envConvFail).copiedToDest = none ∧
    (run argsFile envConvFail).stdoutBytes = none :=
  have h := converter_failure_aborts argsFile envConvFail 1 "" "bad file"
    (Or.inl rfl) (by decide) rfl rfl rfl (by decide)
  ⟨h.1, h.2.2.1, h.2.2.2.1⟩

/-- A cache hit never reaches the converter: helper shared by the round
trip. -/
theorem hit_no_invoke (a : Args) (e : Env) (k : String) (hk : hash_input a = some k)
    (hhit : (e.files (keyPath e.tmpDir k a.format)).isSome = true) :
    (run a e).invoked = false ∧ (dirStageOk e → (run a e).reusedCache = true) := by
  unfold run
  by_cases hdc : ¬ e.cacheDirPreexists ∧ e.createDir ≠ DirResult.ok
  · rw [if_pos hdc]
    exact ⟨rfl, fun hd => absurd hdc (dir_cond_not hd)⟩
  · rw [if_neg hdc]
    simp only [pathAndHit_file e hk, hhit]
    exact ⟨deliver_invoked _ _ _ _ _ _, fun _ => deliver_reused _ _ _ _ _ _⟩

/-- A successful keyed run leaves a file at its cache path. -/
theorem run_ok_files {a : Args} {e : Env} {k : String} (hk : hash_input a = some k)
    (h : (run a e).outcome = Outcome.ok) :
    ((run a e).finalFiles (keyPath e.tmpDir k a.format)).isSome = true := by
  unfold run at h ⊢
  by_cases hdc : ¬ e.cacheDirPreexists ∧ e.createDir ≠ DirResult.ok
  · rw [if_pos hdc] at h
    simp at h
  · rw [if_neg hdc] at h ⊢
    simp only [pathAndHit_file e hk] at h ⊢
    cases hf : (e.files (keyPath e.tmpDir k a.format)).isSome with
    | true =>
      simp only [hf] at h ⊢
      exact deliver_ok_files _ _ _ _ _ _ h
    | false =>
      simp only [hf] at h ⊢
      cases hfm : exportArg a.format with
      | none => simp [hfm] at h
      | some t =>
        simp only [hfm] at h ⊢
        by_cases hdpi : a.dpi_x = a.dpi_y
        · rw [if_pos hdpi] at h ⊢
          cases hc : e.converter with
          | spawnFail => simp [hc] at h
          | exit code o s2 =>
            simp only [hc] at h ⊢
            by_cases hz : code = 0
            · simp only [if_pos hz] at h ⊢
              exact deliver_ok_files _ _ _ _ _ _ h
            · simp [hz] at h
        · rw [if_neg hdpi] at h
          simp at h

/-- **C2.** (a) On every keyed invocation whose cache file already exists,
the converter is never invoked, and (with the directory stage passed) the
cached-artifact branch is taken.  (b) Round trip: after a successful run on
a real-file input, re-invoking with the same arguments against the
resulting filesystem (same temp directory, directory stage passing) takes
the cached branch without invoking the converter again. -/
theorem cache_hit_skips_converter :
    (∀ (a : Args) (e : Env) (k : String), hash_input a = some k →
        (e.files (keyPath e.tmpDir k a.format)).isSome = true →
        (run a e).invoked = false ∧ (dirStageOk e → (run a e).reusedCache = true)) ∧
    (∀ (a : Args) (e₁ e₂ : Env) (p : String), a.input = some p →
        (run a e₁).outcome = Outcome.ok →
        e₂.files = (run a e₁).finalFiles → e₂.tmpDir = e₁.tmpDir → dirStageOk e₂ →
        (run a e₂).invoked = false ∧ (run a e₂).reusedCache = true) := by
  constructor
  · exact fun a e k hk hhit => hit_no_invoke a e k hk hhit
  · intro a e₁ e₂ p hp h1 hfiles htmp hd2
    have hk : hash_input a = some (hexString (sipHash13 (fullStream a p))) := by
      simp [hash_input, hp]
    have hok := run_ok_files hk h1
    have hhit : (e₂.files
        (keyPath e₂.tmpDir (hexString (sipHash13 (fullStream a p))) a.format)).isSome = true := by
      rw [hfiles, htmp]
      exact hok
    have h := hit_no_invoke a e₂ _ hk hhit
    exact ⟨h.1, h.2 hd2⟩

set_option maxRecDepth 8000 in
/-- Witness for C2: a concrete successful conversion followed by an
identical re-invocation against the resulting filesystem reuses the cache
without invoking the converter. -/
theorem cache_hit_skips_converter_witness :
    (run argsFile { envMiss with files := (run argsFile envMiss).finalFiles }).invoked = false ∧
    (run argsFile { envMiss with files := (run argsFile envMiss).finalFiles }).reusedCache
      = true :=
  cache_hit_skips_converter.2 argsFile envMiss
    { envMiss with files := (run argsFile envMiss).finalFiles } "/tmp/a.svg"
    rfl (by decide) rfl rfl (Or.inl rfl)

/-- The cache path a missing-artifact invocation settles on. -/
def missPath (a : Args) (e : Env) : String := (pathAndHit a e).1

/-- **C9.** With no explicit output destination: a cache hit streams the
cache file's bytes verbatim to standard output; after a successful
converter run that produced an artifact, those bytes are streamed verbatim;
and if the converter exited zero but produced nothing, the run fails with
the `No output was generated` diagnostic and streams nothing. -/
theorem stdout_delivery (a : Args) (e : Env) (hout : a.output = none) (hdir : dirStageOk e) :
    (∀ k bs, hash_input a = some k → e.files (keyPath e.tmpDir k a.format) = some bs →
        e.stdoutWriteOk = true →
        (run a e).outcome = Outcome.ok ∧ (run a e).stdoutBytes = some bs) ∧
    (∀ o s2, (pathAndHit a e).2 = false → (exportArg a.format).isSome = true →
        a.dpi_x = a.dpi_y → e.converter = ConvResult.exit 0 o s2 → e.artifact = none →
        (run a e).outcome = Outcome.err (ErrKind.noOutput (missPath a e)) ∧
        (run a e).stdoutBytes = none ∧
        renderErr (ErrKind.noOutput (missPath a e)) =
          "No output was generated: " ++ missPath a e) ∧
    (∀ o s2 bs, (pathAndHit a e).2 = false → (exportArg a.format).isSome = true →
        a.dpi_x = a.dpi_y → e.converter = ConvResult.exit 0 o s2 → e.artifact = some bs →
        e.stdoutWriteOk = true →
        (run a e).outcome = Outcome.ok ∧ (run a e).stdoutBytes = some bs) := by
  refine ⟨?_, ?_, ?_⟩
  · intro k bs hk hf hw
    unfold run
    rw [if_neg (dir_cond_not hdir)]
    have hhit : (e.files (keyPath e.tmpDir k a.format)).isSome = true := by simp [hf]
    simp only [pathAndHit_file e hk, hhit]
    simp only [deliver, hout, hf, hw]
    exact ⟨rfl, rfl⟩
  · intro o s2 hmiss hfmt hdpi hconv hart
    unfold run
    rw [if_neg (dir_cond_not hdir)]
    simp only [hmiss]
    cases hfm : exportArg a.format with
    | none => simp [hfm] at hfmt
    | some t =>
      simp only [hfm]
      rw [if_pos hdpi, hconv]
      simp only [if_pos rfl]
      have hfiles2 :
          updateFiles e.files (pathAndHit a e).1 e.artifact (pathAndHit a e).1 = none := by
        simp [updateFiles, hart]
      simp only [deliver, hout, hfiles2, missPath]
      exact ⟨rfl, rfl, rfl⟩
  · intro o s2 bs hmiss hfmt hdpi hconv hart hw
    unfold run
    rw [if_neg (dir_cond_not hdir)]
    simp only [hmiss]
    cases hfm : exportArg a.format with
    | none => simp [hfm] at hfmt
    | some t =>
      simp only [hfm]
      rw [if_pos hdpi, hconv]
      simp only [if_pos rfl]
      have hfiles2 :
          updateFiles e.files (pathAndHit a e).1 e.artifact (pathAndHit a e).1 = some bs := by
        simp [updateFiles, hart]
      simp only [deliver, hout, hfiles2, hw]
      exact ⟨rfl, rfl⟩

/-- An environment where the converter exits zero but writes nothing. -/
def envNoArtifact : Env := { envMiss with artifact := none }

/-- Witness for C9: the silent-converter case fails with the
`No output was generated` error, and the productive case streams the
artifact bytes to standard output. -/
theorem stdout_delivery_witness :
    ((run argsFile envNoArtifact).outcome
        = Outcome.err (ErrKind.noOutput (missPath argsFile envNoArtifact)) ∧
      (run argsFile envNoArtifact).stdoutBytes = none) ∧
    ((run argsFile envMiss).outcome = Outcome.ok ∧
      (run argsFile envMiss).stdoutBytes = some [1, 2, 3]) :=
  have h1 := (stdout_delivery argsFile envNoArtifact rfl (Or.inl rfl)).2.1
    "" "" (by decide) rfl rfl rfl rfl
  have h2 := (stdout_delivery argsFile envMiss rfl (Or.inl rfl)).2.2
    "" "" [1, 2, 3] (by decide) rfl rfl rfl rfl rfl
  ⟨⟨h1.1, h1.2.1⟩, h2⟩

/-- **C7 (amended).**  The cache key of a real-file request is the
lowercase-hex SipHash of the byte stream `fullStream` (first conjunct).
Changing any single parameter — for the numeric fields, changing the value
truncated to thousandths; width/height within the `u64` range — while
holding everything else and the input path fixed changes that byte stream,
so the derived keys differ except for a 64-bit hash collision (the claim's
own "low collision expectation", not strict uniqueness). -/
theorem param_change_changes_hash_stream (a : Args)
    (hw : optBound a.width) (hh : optBound a.height) :
    (∀ p, a.input = some p →
        hash_input a = some (hexString (sipHash13 (fullStream a p)))) ∧
    (∀ q p, trunc1000 q ≠ trunc1000 a.dpi_x →
        fullStream { a with dpi_x := q } p ≠ fullStream a p) ∧
    (∀ q p, trunc1000 q ≠ trunc1000 a.dpi_y →
        fullStream { a with dpi_y := q } p ≠ fullStream a p) ∧
    (∀ q p, trunc1000 q ≠ trunc1000 a.x_zoom →
        fullStream { a with x_zoom := q } p ≠ fullStream a p) ∧
    (∀ q p, trunc1000 q ≠ trunc1000 a.y_zoom →
        fullStream { a with y_zoom := q } p ≠ fullStream a p) ∧
    (∀ w p, optBound w → w ≠ a.width →
        fullStream { a with width := w } p ≠ fullStream a p) ∧
    (∀ h p, optBound h → h ≠ a.height →
        fullStream { a with height := h } p ≠ fullStream a p) ∧
    (∀ f p, f ≠ a.format →
        fullStream { a with format := f } p ≠ fullStream a p) ∧
    (∀ b p, b ≠ a.keep_aspect_ratio →
        fullStream { a with keep_aspect_ratio := b } p ≠ fullStream a p) := by
  refine ⟨?_, ?_, ?_, ?_, ?_, ?_, ?_, ?_, ?_⟩
  · intro p hp
    simp [hash_input, hp]
  · intro q p hne heq
    apply hne
    simp only [fullStream, paramStream, List.append_assoc] at heq
    exact u64le_inj (trunc1000_lt q) (trunc1000_lt a.dpi_x) (List.append_cancel_right heq)
  · intro q p hne heq
    apply hne
    simp only [fullStream, paramStream, List.append_assoc] at heq
    have h1 := List.append_cancel_left heq
    exact u64le_inj (trunc1000_lt q) (trunc1000_lt a.dpi_y) (List.append_cancel_right h1)
  · intro q p hne heq
    apply hne
    simp only [fullStream, paramStream, List.append_assoc] at heq
    have h1 := List.append_cancel_left (List.append_cancel_left heq)
    exact u64le_inj (trunc1000_lt q) (trunc1000_lt a.x_zoom) (List.append_cancel_right h1)
  · intro q p hne heq
    apply hne
    simp only [fullStream, paramStream, List.append_assoc] at heq
    have h1 := List.append_cancel_left (List.append_cancel_left (List.append_cancel_left heq))
    exact u64le_inj (trunc1000_lt q) (trunc1000_lt a.y_zoom) (List.append_cancel_right h1)
  · intro w p hb hne heq
    apply hne
    simp only [fullStream, paramStream, List.append_assoc] at heq
    have h1 := List.append_cancel_left (List.append_cancel_left
      (List.append_cancel_left (List.append_cancel_left heq)))
    exact optU64Bytes_inj hb hw (List.append_cancel_right h1)
  · intro h p hb hne heq
    apply hne
    simp only [fullStream, paramStream, List.append_assoc] at heq
    have h1 := List.append_cancel_left (List.append_cancel_left (List.append_cancel_left
      (List.append_cancel_left (List.append_cancel_left heq))))
    exact optU64Bytes_inj hb hh (List.append_cancel_right h1)
  · intro f p hne heq
    apply hne
    simp only [fullStream, paramStream, List.append_assoc] at heq
    have h1 := List.append_cancel_left (List.append_cancel_left (List.append_cancel_left
      (List.append_cancel_left (List.append_cancel_left (List.append_cancel_left heq)))))
    exact strHashBytes_inj (List.append_cancel_right h1)
  · intro b p hne heq
    apply hne
    simp only [fullStream, paramStream, List.append_assoc] at heq
    have h1 := List.append_cancel_left (List.append_cancel_left (List.append_cancel_left
      (List.append_cancel_left (List.append_cancel_left (List.append_cancel_left
        (List.append_cancel_left heq))))))
    have h2 := List.append_cancel_right h1
    simp only [List.cons.injEq, and_true] at h2
    exact boolByte_inj h2

/-- `argsFile` with its X DPI nudged by `2 ^ -11` (an exactly representable
`f64` step below the thousandths granularity). -/
def argsDpiTweak : Args := { argsFile with dpi_x := mkRat 184321 2048 }

/-- Counterexample to C7 as stated: changing the single DPI-X parameter
from `90` to `90 + 2 ^ -11` is a parameter change, yet the derived cache
key is unchanged, because the field is truncated to thousandths before
hashing. -/
theorem param_below_granularity_same_key_cex :
    argsDpiTweak.dpi_x ≠ argsFile.dpi_x ∧
    hash_input argsDpiTweak = hash_input argsFile := by
  constructor
  · decide
  · decide

/-- Witness for C7's amended theorem: at the representative request, a
format change and a truncation-visible DPI change each change the hasher
input stream. -/
theorem param_change_changes_hash_stream_witness :
    fullStream { argsFile with format := "pdf" } "/tmp/a.svg"
        ≠ fullStream argsFile "/tmp/a.svg" ∧
    fullStream { argsFile with dpi_x := mkRat 91 1 } "/tmp/a.svg"
        ≠ fullStream argsFile "/tmp/a.svg" :=
  ⟨(param_change_changes_hash_stream argsFile True.intro True.intro).2.2.2.2.2.2.2.1
      "pdf" "/tmp/a.svg" (by decide),
   (param_change_changes_hash_stream argsFile True.intro True.intro).2.1
      (mkRat 91 1) "/tmp/a.svg" (by decide)⟩

end RsvgConvert
